import Mathlib

/-!
Verification of `src/asn1_function_sheet.py` (cohort statistics assignment).
The program works over pandas DataFrames.  The shallow embedding models a
DataFrame as an ordered list of named columns; a column is either numeric
(cells are `Option ℚ`, `none` modelling a float NaN / missing value) or
categorical (cells are `Option String`, `none` modelling NaN).  Python
floats are modelled by exact rationals; the only irrational values produced
by the program are square roots, so a produced float is represented
symbolically by `PyNum` (an exact rational, the square root of a rational,
or a rational divided by such a square root) with a real-number
interpretation `PyNum.toReal`.  Python exceptions are modelled by
`Except PyErr`.  Python dicts (insertion-ordered, string keys) are modelled
by association lists with `dictGet` / `dictSet`.
-/

/-- Python exceptions that the program can raise.  The `ValueError` raised by
`effectSizer` carries the offending column name and the observed distinct
values, modelling the message
`f"{cat_col} must have exactly 2 unique values, found: {values}"`. -/
inductive PyErr where
  | valueError (col : String) (observed : List String)
  | keyError (key : String)
  | typeError
  | attributeError
  deriving DecidableEq

/-- A Python float value produced by this program: either an exact rational,
the square root of a (nonnegative) rational (pandas `std`), or a rational
divided by such a square root (Cohen's d).  NaN is represented by `none`
at the `Option PyNum` level. -/
inductive PyNum where
  | rat (q : ℚ)
  | sqrtOf (q : ℚ)
  | divSqrt (a v : ℚ)
  deriving DecidableEq

deriving instance DecidableEq for Except

/-- Real-number interpretation of a `PyNum`. -/
noncomputable def PyNum.toReal : PyNum → ℝ
  | .rat q => (q : ℝ)
  | .sqrtOf q => Real.sqrt (q : ℝ)
  | .divSqrt a v => (a : ℝ) / Real.sqrt (v : ℝ)

/-- Cells of a DataFrame column: numeric (float dtype) or categorical
(object dtype).  `none` is a missing value (NaN). -/
inductive ColCells where
  | numeric (cells : List (Option ℚ))
  | categorical (cells : List (Option String))
  deriving DecidableEq

/-- A named DataFrame column. -/
structure Column where
  name : String
  cells : ColCells
  deriving DecidableEq

/-- A DataFrame: ordered list of named columns, rows positionally aligned. -/
abbrev Table := List Column

/-- `df[c]`: the cells of the first column named `c`, if present. -/
def getCol (df : Table) (c : String) : Option ColCells :=
  (df.find? (fun col => col.name = c)).map Column.cells

/-- `df[c] = cells`: replace the cells of the column named `c`. -/
def setCol (df : Table) (c : String) (cells : ColCells) : Table :=
  df.map (fun col => if col.name = c then { col with cells := cells } else col)

/-- Python dict lookup `d[k]` (first binding wins; our dicts never hold
duplicate keys). -/
def dictGet {α : Type} (k : String) (d : List (String × α)) : Option α :=
  (d.find? (fun p => p.1 = k)).map Prod.snd

/-- Python dict assignment `d[k] = v`: overwrite in place if the key exists,
else append at the end (insertion order). -/
def dictSet {α : Type} (k : String) (v : α) : List (String × α) → List (String × α)
  | [] => [(k, v)]
  | (k', v') :: rest => if k' = k then (k, v) :: rest else (k', v') :: dictSet k v rest

/-- Insert a list of bindings one after the other (`d[k] = v` repeatedly). -/
def dictInsertMany {α : Type} (items : List (String × α)) (d : List (String × α)) :
    List (String × α) :=
  items.foldl (fun a p => dictSet p.1 p.2 a) d

/-- pandas `Series.unique`: distinct values in order of first appearance
(a NaN, when present, is kept — once). -/
def uniqueAux {α : Type} [DecidableEq α] (seen : List α) : List α → List α
  | [] => []
  | x :: rest => if x ∈ seen then uniqueAux seen rest else x :: uniqueAux (x :: seen) rest

/-- Distinct values of a list in order of first appearance. -/
def uniqueList {α : Type} [DecidableEq α] (l : List α) : List α :=
  uniqueAux [] l

/-- Keep the entries of `cells` at the `true` positions of `mask`
(boolean-mask row selection `df[mask]`, restricted to one column). -/
def applyMask {α : Type} : List Bool → List α → List α
  | true :: ms, x :: xs => x :: applyMask ms xs
  | false :: ms, _ :: xs => applyMask ms xs
  | _, _ => []

/-- Boolean-mask row selection on a whole column. -/
def maskColCells (mask : List Bool) : ColCells → ColCells
  | .numeric cs => .numeric (applyMask mask cs)
  | .categorical cs => .categorical (applyMask mask cs)

/-- Boolean-mask row selection `df[mask]` on a whole DataFrame. -/
def maskTable (mask : List Bool) (df : Table) : Table :=
  df.map (fun col => { col with cells := maskColCells mask col.cells })

/-- `Series.dropna`: the non-missing values, in order. -/
def validOf (cs : List (Option ℚ)) : List ℚ :=
  cs.filterMap id

/-- pandas `Series.mean` over already-dropna values: NaN on the empty list. -/
def meanQ (l : List ℚ) : Option ℚ :=
  if l = [] then none else some (l.sum / l.length)

/-- Sample variance with divisor `n − 1` (the square of pandas
`Series.std(ddof=1)`): NaN when fewer than two values. -/
def varQ (l : List ℚ) : Option ℚ :=
  if l.length < 2 then none
  else some (((l.map (fun x => (x - l.sum / l.length) ^ 2)).sum) / ((l.length : ℚ) - 1))

/-- Insert into a sorted list (ascending). -/
def insertSorted (x : ℚ) : List ℚ → List ℚ
  | [] => [x]
  | y :: ys => if x ≤ y then x :: y :: ys else y :: insertSorted x ys

/-- Sort ascending (insertion sort). -/
def sortQ (l : List ℚ) : List ℚ :=
  l.foldr insertSorted []

/-- pandas `Series.median` over already-dropna values. -/
def medianQ (l : List ℚ) : Option ℚ :=
  let s := sortQ l
  let n := s.length
  if n = 0 then none
  else if n % 2 = 1 then s.get? (n / 2)
  else
    match s.get? (n / 2 - 1), s.get? (n / 2) with
    | some a, some b => some ((a + b) / 2)
    | _, _ => none

/-- pandas `Series.min` over already-dropna values: NaN on the empty list. -/
def minQ : List ℚ → Option ℚ
  | [] => none
  | x :: xs => match minQ xs with
    | none => some x
    | some m => some (min x m)

/-- pandas `Series.max` over already-dropna values: NaN on the empty list. -/
def maxQ : List ℚ → Option ℚ
  | [] => none
  | x :: xs => match maxQ xs with
    | none => some x
    | some m => some (max x m)

/-- Row-mask predicate of `df[col_name] < age_threshold` (NaN compares false). -/
def ltMaskP (t : ℚ) : Option ℚ → Bool
  | some v => decide (v < t)
  | none => false

/-- Row-mask predicate of `df[col_name] >= age_threshold` (NaN compares false). -/
def geMaskP (t : ℚ) : Option ℚ → Bool
  | some v => decide (t ≤ v)
  | none => false

/--
`age_splitter(df, col_name, age_threshold)`:
`df_below = df[df[col_name] < age_threshold]`,
`df_above_equal = df[df[col_name] >= age_threshold]`.
A NaN compares false under both `<` and `>=`, so rows with a missing value
in the column land in neither output.  `none` models the KeyError /
TypeError raised when the column is absent or not numeric. -/
def age_splitter (df : Table) (col_name : String) (age_threshold : ℚ) :
    Option (Table × Table) :=
  match getCol df col_name with
  | some (.numeric cs) =>
      some (maskTable (cs.map (ltMaskP age_threshold)) df,
            maskTable (cs.map (geMaskP age_threshold)) df)
  | _ => none

/-- Python `str.strip()`: remove whitespace from both ends. -/
def pyStrip (s : String) : String :=
  String.mk (((s.data.dropWhile Char.isWhitespace).reverse.dropWhile Char.isWhitespace).reverse)

/-- `df[cat_col].astype(str).str.strip()`: every cell becomes a string,
a NaN becomes the string "nan", surrounding whitespace is stripped.
(`toString` on a rational stands in for Python's `str` on a float; it is
injective, which is all the claims need.) -/
def cleanedCol : ColCells → List String
  | .numeric cs => cs.map (fun o => match o with
      | some q => pyStrip (toString q)
      | none => "nan")
  | .categorical cs => cs.map (fun o => match o with
      | some s => pyStrip s
      | none => "nan")

/--
`effectSizer(df, num_col, cat_col)`.  The first component of the result is
the DataFrame AFTER the call: the line
`df[cat_col] = df[cat_col].astype(str).str.strip()` mutates the caller's
DataFrame in place.  The second component is the returned float or the
raised exception.  Control flow follows the source: clean the categorical
column, take its distinct values, raise ValueError unless there are exactly
two, split the numeric column by the two values, and return Cohen's d,
with `return 0` when the pooled standard deviation is zero or NaN. -/
def effectSizer (df : Table) (num_col cat_col : String) :
    Table × Except PyErr PyNum :=
  match getCol df cat_col with
  | none => (df, .error (.keyError cat_col))
  | some cells =>
    let cleaned := cleanedCol cells
    let df2 := setCol df cat_col (.categorical (cleaned.map some))
    match uniqueList cleaned with
    | [a, b] =>
      match getCol df2 num_col with
      | some (.numeric ncs) =>
        let v1 := validOf (applyMask (cleaned.map (fun s => decide (s = a))) ncs)
        let v2 := validOf (applyMask (cleaned.map (fun s => decide (s = b))) ncs)
        match varQ v1, varQ v2 with
        | some s1, some s2 =>
          if (s1 + s2) / 2 = 0 then (df2, .ok (.rat 0))
          else
            (df2, .ok (.divSqrt (v1.sum / v1.length - v2.sum / v2.length) ((s1 + s2) / 2)))
        | _, _ => (df2, .ok (.rat 0))
      | some (.categorical _) => (df2, .error .typeError)
      | none => (df2, .error (.keyError num_col))
    | vs => (df2, .error (.valueError cat_col vs))

/--
`cohenEffectSize(group1, group2)`: drop missing values from each sample,
return NaN (`none`) if either is then empty; otherwise Cohen's d.  The
source has no `isnan` guard here: a NaN pooled standard deviation (a group
with fewer than two values) fails the `== 0` test and propagates to a NaN
result.  A zero pooled standard deviation returns exactly `0.0`. -/
def cohenEffectSize (group1 group2 : List (Option ℚ)) : Option PyNum :=
  let g1 := group1.filterMap id
  let g2 := group2.filterMap id
  if g1 = [] ∨ g2 = [] then none
  else
    match varQ g1, varQ g2 with
    | some s1, some s2 =>
      if (s1 + s2) / 2 = 0 then some (.rat 0)
      else some (.divSqrt (g1.sum / g1.length - g2.sum / g2.length) ((s1 + s2) / 2))
    | _, _ => none

/-- A value stored in `CohortMetric.statistics`.  The five placeholder slots
start as Python `None`; the batch engine stores nested dicts; the five
setters may also be handed a pandas Series (the only stored value with an
`equals` method). -/
inductive StatVal where
  | pyNone
  | pySeries (xs : List (Option ℚ))
  | numDict (d : List (String × List (String × Option PyNum)))
  | cntDict (d : List (String × List (String × Nat)))
  deriving DecidableEq

/-- The `CohortMetric` record: a cohort label and an insertion-ordered
statistics dict. -/
structure CohortMetric where
  cohort_name : String
  statistics : List (String × StatVal)
  deriving DecidableEq

/-- `CohortMetric.__init__`: the five placeholder slots, all `None`. -/
def CohortMetric.init (cohort_name : String) : CohortMetric :=
  { cohort_name := cohort_name,
    statistics := [("mean", .pyNone), ("median", .pyNone), ("std", .pyNone),
                   ("min", .pyNone), ("max", .pyNone)] }

/-- `setMean`. -/
def CohortMetric.setMean (m : CohortMetric) (v : StatVal) : CohortMetric :=
  { m with statistics := dictSet "mean" v m.statistics }

/-- `setMedian`. -/
def CohortMetric.setMedian (m : CohortMetric) (v : StatVal) : CohortMetric :=
  { m with statistics := dictSet "median" v m.statistics }

/-- `setStd`. -/
def CohortMetric.setStd (m : CohortMetric) (v : StatVal) : CohortMetric :=
  { m with statistics := dictSet "std" v m.statistics }

/-- `setMin`. -/
def CohortMetric.setMin (m : CohortMetric) (v : StatVal) : CohortMetric :=
  { m with statistics := dictSet "min" v m.statistics }

/-- `setMax`. -/
def CohortMetric.setMax (m : CohortMetric) (v : StatVal) : CohortMetric :=
  { m with statistics := dictSet "max" v m.statistics }

/-- `metric.statistics[k] = v` as done by `cohortCompare`. -/
def CohortMetric.setStatKey (m : CohortMetric) (k : String) (v : StatVal) : CohortMetric :=
  { m with statistics := dictSet k v m.statistics }

/-- `v.equals(w)`: only a pandas Series has an `equals` method; on anything
else attribute access raises `AttributeError`.  `Series.equals` is value
equality with NaNs in the same location counted equal — exactly equality
of the `Option` lists — and is `False` against a non-Series argument. -/
def StatVal.equalsMethod : StatVal → StatVal → Except PyErr Bool
  | .pySeries xs, .pySeries ys => .ok (xs = ys)
  | .pySeries _, _ => .ok false
  | _, _ => .error .attributeError

/-- The loop of `compare_to`: iterate over `self.statistics` in dict order,
look the key up in `other.statistics` (KeyError if absent), call `equals`
on the stored value, return `False` at the first mismatch. -/
def compareList (other : CohortMetric) : List (String × StatVal) → Except PyErr Bool
  | [] => .ok true
  | (k, v) :: rest =>
    match dictGet k other.statistics with
    | none => .error (.keyError k)
    | some w =>
      match StatVal.equalsMethod v w with
      | .error e => .error e
      | .ok true => compareList other rest
      | .ok false => .ok false

/-- `CohortMetric.compare_to`. -/
def CohortMetric.compare_to (m other : CohortMetric) : Except PyErr Bool :=
  compareList other m.statistics

/-- The numeric columns of the DataFrame, in column order
(`df.select_dtypes(include='number').columns`). -/
def numericCols (df : Table) : List (String × List (Option ℚ)) :=
  df.filterMap (fun col => match col.cells with
    | .numeric cs => some (col.name, cs)
    | .categorical _ => none)

/-- The non-numeric columns of the DataFrame, in column order
(`[col for col in df.columns if col not in numeric_cols]`). -/
def categoricalCols (df : Table) : List (String × List (Option String)) :=
  df.filterMap (fun col => match col.cells with
    | .numeric _ => none
    | .categorical cs => some (col.name, cs))

/-- The inner dict of requested numeric statistics for one numeric column of
one cohort, built key by key in the source's order; each statistic skips
missing values (pandas `skipna`). -/
def numStatsFor (statistics : List String) (cs : List (Option ℚ)) :
    List (String × Option PyNum) :=
  let v := validOf cs
  (if "mean" ∈ statistics then [("mean", (meanQ v).map PyNum.rat)] else []) ++
  (if "median" ∈ statistics then [("median", (medianQ v).map PyNum.rat)] else []) ++
  (if "std" ∈ statistics then [("std", (varQ v).map PyNum.sqrtOf)] else []) ++
  (if "min" ∈ statistics then [("min", (minQ v).map PyNum.rat)] else []) ++
  (if "max" ∈ statistics then [("max", (maxQ v).map PyNum.rat)] else [])

/-- `Series.value_counts().to_dict()`: each observed (non-missing) value
mapped to its number of occurrences.  (pandas lists the entries by
descending count; the claims only use the mapping, so the model keeps
first-appearance order — the resulting dict is the same function.) -/
def valueCounts (cs : List (Option String)) : List (String × Nat) :=
  let v := cs.filterMap id
  (uniqueList v).map (fun s => (s, v.count s))

/-- pandas `==` against a scalar: NaN on either side compares `False`. -/
def pandasEq {α : Type} [DecidableEq α] (c v : Option α) : Bool :=
  match c, v with
  | some a, some b => decide (a = b)
  | _, _ => false

/-- Python `str` of a grouping-column value as used in the cohort label
(`f"{cohort_col}={cohort_value}"`): `str(nan) = "nan"`. -/
def optNumLabel : Option ℚ → String
  | some q => toString q
  | none => "nan"

/-- Label text of a categorical grouping value; a NaN renders as "nan". -/
def optStrLabel : Option String → String
  | some s => s
  | none => "nan"

/-- The distinct values of a grouping column (`df[cohort_col].unique()` —
note: NaN is NOT dropped), each with its label text and its row mask
`df[cohort_col] == cohort_value`. -/
def groupInstances : ColCells → List (String × List Bool)
  | .numeric cs =>
      (uniqueList cs).map (fun v => (optNumLabel v, cs.map (fun c => pandasEq c v)))
  | .categorical cs =>
      (uniqueList cs).map (fun v => (optStrLabel v, cs.map (fun c => pandasEq c v)))

/-- Labels of a grouping column's distinct values. -/
def ColCells.uniqueLabels : ColCells → List String
  | .numeric cs => (uniqueList cs).map optNumLabel
  | .categorical cs => (uniqueList cs).map optStrLabel

/-- Whether a column contains a missing value. -/
def ColCells.hasMissing : ColCells → Bool
  | .numeric cs => cs.any Option.isNone
  | .categorical cs => cs.any Option.isNone

/-- The body of `cohortCompare`'s inner loop: build the `CohortMetric` for
one cohort (given its label and row mask) — default-construct, then set
`statistics["numeric_stats"]` and `statistics["counts"]`. -/
def cohortMetricFor (df : Table) (statistics : List String) (label : String)
    (mask : List Bool) : CohortMetric :=
  let nd := (numericCols df).map
    (fun p => (p.1, numStatsFor statistics (applyMask mask p.2)))
  let cd := (categoricalCols df).map
    (fun p => (p.1, valueCounts (applyMask mask p.2)))
  ((CohortMetric.init label).setStatKey "numeric_stats" (.numDict nd)).setStatKey
    "counts" (.cntDict cd)

/-- The `(label, metric)` pairs contributed by one grouping column, in
iteration order of `df[cohort_col].unique()`. -/
def cohortEntries (df : Table) (statistics : List String) (col : String)
    (cells : ColCells) : List (String × CohortMetric) :=
  (groupInstances cells).map
    (fun p => (col ++ "=" ++ p.1, cohortMetricFor df statistics (col ++ "=" ++ p.1) p.2))

/-- The loop of `cohortCompare` over the grouping columns, threading the
`results` dict; `none` models the KeyError on an absent grouping column. -/
def cohortCompareAux (df : Table) (statistics : List String) :
    List String → List (String × CohortMetric) → Option (List (String × CohortMetric))
  | [], acc => some acc
  | col :: rest, acc =>
    match getCol df col with
    | none => none
    | some cells =>
        cohortCompareAux df statistics rest (dictInsertMany (cohortEntries df statistics col cells) acc)

/-- `cohortCompare(df, cohorts, statistics)`: a dict from cohort label
`"<col>=<value>"` to its `CohortMetric`. -/
def cohortCompare (df : Table) (cohorts : List String) (statistics : List String) :
    Option (List (String × CohortMetric)) :=
  cohortCompareAux df statistics cohorts []

/-- The nested `numeric_stats` dict of a metric, when present. -/
def getNumericStats (m : CohortMetric) : Option (List (String × List (String × Option PyNum))) :=
  match dictGet "numeric_stats" m.statistics with
  | some (.numDict d) => some d
  | _ => none

/-- The nested `counts` dict of a metric, when present. -/
def getCounts (m : CohortMetric) : Option (List (String × List (String × Nat))) :=
  match dictGet "counts" m.statistics with
  | some (.cntDict d) => some d
  | _ => none

/-- The full list of statistic names, the Python default argument. -/
def allStats : List String := ["mean", "median", "std", "min", "max"]

/-- The spec's example table: grouping column "group" with three rows of "x"
and three of "y", numeric column "val" = [1,2,3,4,5,6]. -/
def exTable : Table :=
  [{ name := "group",
     cells := .categorical [some "x", some "x", some "x", some "y", some "y", some "y"] },
   { name := "val",
     cells := .numeric [some 1, some 2, some 3, some 4, some 5, some 6] }]

/-- A single-cohort table whose categorical column "cat" holds a, a, b. -/
def exTableCat : Table :=
  [{ name := "group", cells := .categorical [some "g", some "g", some "g"] },
   { name := "cat", cells := .categorical [some "a", some "a", some "b"] }]

/-- A table whose grouping column contains a missing value. -/
def exTableNan : Table :=
  [{ name := "group", cells := .categorical [some "x", none] },
   { name := "val", cells := .numeric [some 1, some 2] }]

/-- A table whose categorical column has a single distinct non-missing value
("a") plus two missing values. -/
def exTableOneDistinct : Table :=
  [{ name := "cat", cells := .categorical [some "a", none, none] },
   { name := "num", cells := .numeric [some 1, some 2, some 3] }]

/-- A table whose categorical column contains surrounding whitespace. -/
def exTableSpace : Table :=
  [{ name := "cat", cells := .categorical [some " a ", some "b"] },
   { name := "num", cells := .numeric [some 1, some 2] }]

/-- A clean binary-category table with two observations per group. -/
def exTableBinary : Table :=
  [{ name := "cat", cells := .categorical [some "a", some "a", some "b", some "b"] },
   { name := "num", cells := .numeric [some 1, some 2, some 3, some 4] }]

/-- Convenience accessor: the stored value of statistic `stat` for numeric
column `ncol` in the cohort labelled `label` of a `cohortCompare` result. -/
def lookupNumStat (res : Option (List (String × CohortMetric)))
    (label ncol stat : String) : Option (Option PyNum) :=
  (((res.bind (dictGet label)).bind getNumericStats).bind (dictGet ncol)).bind
    (dictGet stat)

/-- Convenience accessor: the count of category value `v` for categorical
column `ccol` in the cohort labelled `label` of a `cohortCompare` result. -/
def lookupCount (res : Option (List (String × CohortMetric)))
    (label ccol v : String) : Option Nat :=
  ((res.bind (dictGet label)).bind getCounts).bind (dictGet ccol) |>.bind (dictGet v)

/-- A concrete table for the age-splitter witness: one numeric "age" column
with a missing value, one categorical "tag" column. -/
def exTableAge : Table :=
  [{ name := "age", cells := .numeric [some 1, some 5, none] },
   { name := "tag", cells := .categorical [some "u", some "v", some "w"] }]

/-- The distinct non-missing values of a categorical column — the quantity
the spec says `effectSizer` validates (the source instead validates the
distinct values AFTER coercing missing values to the string "nan"). -/
def distinctNonMissing (cs : List (Option String)) : List String :=
  uniqueList (cs.filterMap id)

/-- Whether a result is the raised ValueError (the spec's ValidationError). -/
def isValueError : Except PyErr PyNum → Bool
  | .error (.valueError _ _) => true
  | _ => false

/-- Tables for the C4 witness: three distinct category values, and one
repeated category value. -/
def exTableThree : Table :=
  [{ name := "cat", cells := .categorical [some "a", some "b", some "c"] },
   { name := "num", cells := .numeric [some 1, some 2, some 3] }]

/-- A table whose categorical column holds a single value three times. -/
def exTableAAA : Table :=
  [{ name := "cat", cells := .categorical [some "a", some "a", some "a"] },
   { name := "num", cells := .numeric [some 1, some 2, some 3] }]

/-- A binary-category table whose numeric column is constant per group. -/
def exTableConst : Table :=
  [{ name := "cat", cells := .categorical [some "a", some "a", some "b", some "b"] },
   { name := "num", cells := .numeric [some 1, some 1, some 2, some 2] }]

/-- A binary-category table with one observation per group. -/
def exTableOneObs : Table :=
  [{ name := "cat", cells := .categorical [some "a", some "b"] },
   { name := "num", cells := .numeric [some 1, some 2] }]

/-- A `CohortMetric` built through the five setter slots
(`setMean` … `setMax`). -/
def buildFive (label : String) (v1 v2 v3 v4 v5 : StatVal) : CohortMetric :=
  (((((CohortMetric.init label).setMean v1).setMedian v2).setStd v3).setMin v4).setMax v5

theorem mem_uniqueAux {α : Type} [DecidableEq α] (x : α) :
    ∀ (l seen : List α), x ∈ uniqueAux seen l ↔ x ∈ l ∧ x ∉ seen := by
  intro l
  induction l with
  | nil => intro seen; simp [uniqueAux]
  | cons y rest ih =>
    intro seen
    by_cases hy : y ∈ seen
    · simp only [uniqueAux, if_pos hy, ih, List.mem_cons]
      constructor
      · rintro ⟨hx, hxs⟩
        exact ⟨Or.inr hx, hxs⟩
      · rintro ⟨rfl | hx, hxs⟩
        · exact absurd hy hxs
        · exact ⟨hx, hxs⟩
    · simp only [uniqueAux, if_neg hy, List.mem_cons, ih]
      constructor
      · rintro (rfl | ⟨hx, hxs⟩)
        · exact ⟨Or.inl rfl, hy⟩
        · simp only [List.mem_cons, not_or] at hxs
          exact ⟨Or.inr hx, hxs.2⟩
      · rintro ⟨rfl | hx, hxs⟩
        · exact Or.inl rfl
        · by_cases hxy : x = y
          · exact Or.inl hxy
          · refine Or.inr ⟨hx, ?_⟩
            simp only [List.mem_cons, not_or]
            exact ⟨hxy, hxs⟩

theorem mem_uniqueList {α : Type} [DecidableEq α] (x : α) (l : List α) :
    x ∈ uniqueList l ↔ x ∈ l := by
  simp [uniqueList, mem_uniqueAux]

theorem uniqueAux_nodup {α : Type} [DecidableEq α] :
    ∀ (l seen : List α), (uniqueAux seen l).Nodup := by
  intro l
  induction l with
  | nil => intro seen; simp [uniqueAux]
  | cons y rest ih =>
    intro seen
    by_cases hy : y ∈ seen
    · simp only [uniqueAux, if_pos hy]
      exact ih seen
    · simp only [uniqueAux, if_neg hy]
      refine List.nodup_cons.mpr ⟨fun hmem => ?_, ih (y :: seen)⟩
      exact ((mem_uniqueAux y rest (y :: seen)).mp hmem).2 (List.mem_cons_self y seen)

theorem uniqueList_nodup {α : Type} [DecidableEq α] (l : List α) :
    (uniqueList l).Nodup :=
  uniqueAux_nodup l []

theorem dictGet_nil {α : Type} (k : String) : dictGet k ([] : List (String × α)) = none :=
  rfl

theorem dictGet_cons {α : Type} (k : String) (p : String × α) (d : List (String × α)) :
    dictGet k (p :: d) = if p.1 = k then some p.2 else dictGet k d := by
  by_cases h : p.1 = k <;> simp [dictGet, List.find?, h]

theorem dictGet_dictSet_self {α : Type} (k : String) (v : α) (d : List (String × α)) :
    dictGet k (dictSet k v d) = some v := by
  induction d with
  | nil => simp [dictSet, dictGet_cons]
  | cons p rest ih =>
    by_cases h : p.1 = k
    · simp [dictSet, h, dictGet_cons]
    · simp [dictSet, h, dictGet_cons, ih]

theorem dictGet_dictSet_ne {α : Type} (k k' : String) (v : α) (d : List (String × α))
    (h : k' ≠ k) : dictGet k' (dictSet k v d) = dictGet k' d := by
  have hkk : ¬(k = k') := fun hh => h hh.symm
  induction d with
  | nil => simp [dictSet, dictGet_cons, dictGet_nil, hkk]
  | cons p rest ih =>
    by_cases hp : p.1 = k
    · simp [dictSet, hp, dictGet_cons, hkk]
    · simp [dictSet, hp, dictGet_cons, ih]

theorem mem_dictSet {α : Type} (p : String × α) (k : String) (v : α)
    (d : List (String × α)) (h : p ∈ dictSet k v d) : p = (k, v) ∨ p ∈ d := by
  induction d with
  | nil => simpa [dictSet] using h
  | cons q rest ih =>
    by_cases hq : q.1 = k
    · simp only [dictSet, if_pos hq, List.mem_cons] at h
      rcases h with h | h
      · exact Or.inl h
      · exact Or.inr (List.mem_cons_of_mem _ h)
    · simp only [dictSet, if_neg hq, List.mem_cons] at h
      rcases h with h | h
      · exact Or.inr (by simp [h])
      · rcases ih h with h' | h'
        · exact Or.inl h'
        · exact Or.inr (List.mem_cons_of_mem _ h')

theorem dictSet_of_fresh {α : Type} (k : String) (v : α) :
    ∀ (d : List (String × α)), k ∉ d.map Prod.fst → dictSet k v d = d ++ [(k, v)] := by
  intro d
  induction d with
  | nil => intro _; simp [dictSet]
  | cons q rest ih =>
    intro h
    simp only [List.map_cons, List.mem_cons] at h
    push_neg at h
    simp only [dictSet, if_neg (fun hq : q.1 = k => h.1 hq.symm), List.cons_append]
    rw [ih h.2]

theorem dictInsertMany_of_fresh {α : Type} :
    ∀ (items d : List (String × α)), (items.map Prod.fst).Nodup →
      (∀ k ∈ items.map Prod.fst, k ∉ d.map Prod.fst) →
      dictInsertMany items d = d ++ items := by
  intro items
  induction items with
  | nil => intro d _ _; simp [dictInsertMany]
  | cons i rest ih =>
    intro d hnd hfresh
    have h1 : i.1 ∉ d.map Prod.fst := hfresh i.1 (by simp)
    have step : dictSet i.1 i.2 d = d ++ [(i.1, i.2)] := dictSet_of_fresh i.1 i.2 d h1
    have hnd' : (rest.map Prod.fst).Nodup := (List.nodup_cons.mp (by simpa using hnd)).2
    have hfresh' : ∀ k ∈ rest.map Prod.fst, k ∉ (d ++ [(i.1, i.2)]).map Prod.fst := by
      intro k hk
      simp only [List.map_append, List.mem_append, List.map_cons, List.map_nil,
        List.mem_singleton]
      push_neg
      refine ⟨hfresh k (by simp [hk]), fun hki => ?_⟩
      have : i.1 ∉ rest.map Prod.fst := (List.nodup_cons.mp (by simpa using hnd)).1
      exact this (hki ▸ hk)
    calc dictInsertMany (i :: rest) d
        = dictInsertMany rest (dictSet i.1 i.2 d) := rfl
      _ = dictInsertMany rest (d ++ [(i.1, i.2)]) := by rw [step]
      _ = (d ++ [(i.1, i.2)]) ++ rest := ih (d ++ [(i.1, i.2)]) hnd' hfresh'
      _ = d ++ (i :: rest) := by simp

theorem mem_dictInsertMany {α : Type} :
    ∀ (items d : List (String × α)) (p : String × α), p ∈ dictInsertMany items d →
      p ∈ d ∨ p.2 ∈ items.map Prod.snd := by
  intro items
  induction items with
  | nil => intro d p h; exact Or.inl (by simpa [dictInsertMany] using h)
  | cons i rest ih =>
    intro d p h
    have h' : p ∈ dictInsertMany rest (dictSet i.1 i.2 d) := h
    rcases ih (dictSet i.1 i.2 d) p h' with h'' | h''
    · rcases mem_dictSet p i.1 i.2 d h'' with h3 | h3
      · right; simp [h3]
      · exact Or.inl h3
    · right; simp [h'']

theorem applyMask_map_self {α : Type} (p : α → Bool) :
    ∀ (l : List α), applyMask (l.map p) l = l.filter p := by
  intro l
  induction l with
  | nil => rfl
  | cons x xs ih =>
    cases hpx : p x <;> simp [applyMask, List.filter_cons, hpx, ih]

theorem applyMask_sublist {α : Type} :
    ∀ (m : List Bool) (l : List α), (applyMask m l).Sublist l := by
  intro m
  induction m with
  | nil => intro l; cases l <;> simp [applyMask]
  | cons b ms ih =>
    intro l
    cases l with
    | nil => simp [applyMask]
    | cons x xs =>
      cases b
      · exact List.Sublist.cons x (ih xs)
      · exact List.Sublist.cons₂ x (ih xs)

theorem applyMask_partition_perm {α β : Type} (p q r : β → Bool)
    (hpq : ∀ o, ¬(p o = true ∧ q o = true)) (hpr : ∀ o, (p o || q o) = r o) :
    ∀ (cs : List β) (ds : List α),
      (applyMask (cs.map p) ds ++ applyMask (cs.map q) ds).Perm
        (applyMask (cs.map r) ds) := by
  intro cs
  induction cs with
  | nil => intro ds; simp [applyMask]
  | cons c cs ih =>
    intro ds
    cases ds with
    | nil => simp [applyMask]
    | cons d ds =>
      cases hp : p c <;> cases hq : q c
      · have hrc : r c = false := by rw [← hpr c, hp, hq]; rfl
        simpa [applyMask, hp, hq, hrc] using ih ds
      · have hrc : r c = true := by rw [← hpr c, hp, hq]; rfl
        simp only [List.map_cons, hp, hq, hrc, applyMask]
        exact (List.perm_middle).trans ((ih ds).cons d)
      · have hrc : r c = true := by rw [← hpr c, hp, hq]; rfl
        simp only [List.map_cons, hp, hq, hrc, applyMask, List.cons_append]
        exact (ih ds).cons d
      · exact absurd ⟨hp, hq⟩ (hpq c)

theorem getCol_cons (col : Column) (rest : Table) (c : String) :
    getCol (col :: rest) c = if col.name = c then some col.cells else getCol rest c := by
  by_cases h : col.name = c <;> simp [getCol, List.find?, h]

theorem setCol_cons (col : Column) (rest : Table) (c : String) (cells : ColCells) :
    setCol (col :: rest) c cells =
      (if col.name = c then { col with cells := cells } else col) :: setCol rest c cells :=
  rfl

theorem maskTable_cons (m : List Bool) (col : Column) (rest : Table) :
    maskTable m (col :: rest) =
      { col with cells := maskColCells m col.cells } :: maskTable m rest :=
  rfl

theorem getCol_setCol_ne (df : Table) (c c' : String) (cells : ColCells) (h : c' ≠ c) :
    getCol (setCol df c cells) c' = getCol df c' := by
  induction df with
  | nil => rfl
  | cons col rest ih =>
    rw [setCol_cons]
    by_cases hc : col.name = c
    · have hc' : ¬ col.name = c' := by rw [hc]; exact fun hh => h hh.symm
      rw [if_pos hc, getCol_cons, getCol_cons]
      simp [hc', ih]
    · rw [if_neg hc, getCol_cons, getCol_cons, ih]

theorem getCol_setCol_self (df : Table) (c : String) (cells0 cells : ColCells)
    (h : getCol df c = some cells0) : getCol (setCol df c cells) c = some cells := by
  induction df with
  | nil => simp [getCol] at h
  | cons col rest ih =>
    rw [setCol_cons]
    by_cases hc : col.name = c
    · rw [if_pos hc, getCol_cons]
      simp [hc]
    · rw [getCol_cons, if_neg hc] at h
      rw [if_neg hc, getCol_cons, if_neg hc]
      exact ih h

theorem getCol_maskTable (m : List Bool) (df : Table) (c : String) :
    getCol (maskTable m df) c = (getCol df c).map (maskColCells m) := by
  induction df with
  | nil => rfl
  | cons col rest ih =>
    rw [maskTable_cons, getCol_cons, getCol_cons]
    by_cases h : col.name = c
    · simp [h]
    · simp [h, ih]

theorem dictGet_map_key {α : Type} (f : String → α) (s : String) :
    ∀ (l : List String), dictGet s (l.map (fun x => (x, f x))) =
      if s ∈ l then some (f s) else none := by
  intro l
  induction l with
  | nil => simp [dictGet_nil]
  | cons x xs ih =>
    by_cases h : x = s
    · subst h; simp [dictGet_cons]
    · have h' : ¬ s = x := fun hh => h hh.symm
      simp [dictGet_cons, h, h', ih]

theorem dictGet_valueCounts (cs : List (Option String)) (s : String) :
    dictGet s (valueCounts cs) =
      if s ∈ cs.filterMap id then some ((cs.filterMap id).count s) else none := by
  simp only [valueCounts]
  rw [dictGet_map_key (fun x => (cs.filterMap id).count x) s (uniqueList (cs.filterMap id))]
  simp [mem_uniqueList]

theorem varQ_nonneg (l : List ℚ) (s : ℚ) (h : varQ l = some s) : 0 ≤ s := by
  unfold varQ at h
  split at h
  · exact absurd h (by simp)
  · rename_i hlen
    have hs : ((l.map (fun x => (x - l.sum / l.length) ^ 2)).sum) / ((l.length : ℚ) - 1) = s := by
      injection h
    subst hs
    apply div_nonneg
    · apply List.sum_nonneg
      intro x hx
      rcases List.mem_map.mp hx with ⟨y, _, rfl⟩
      exact sq_nonneg _
    · push_neg at hlen
      have h2 : (2 : ℚ) ≤ (l.length : ℚ) := by exact_mod_cast hlen
      linarith

theorem cohortMetricFor_statistics (df : Table) (stats : List String) (label : String)
    (mask : List Bool) :
    (cohortMetricFor df stats label mask).statistics =
      [("mean", .pyNone), ("median", .pyNone), ("std", .pyNone), ("min", .pyNone),
       ("max", .pyNone),
       ("numeric_stats", .numDict ((numericCols df).map
          (fun p => (p.1, numStatsFor stats (applyMask mask p.2))))),
       ("counts", .cntDict ((categoricalCols df).map
          (fun p => (p.1, valueCounts (applyMask mask p.2)))))] := by
  simp [cohortMetricFor, CohortMetric.setStatKey, CohortMetric.init, dictSet]

theorem cohortMetricFor_name (df : Table) (stats : List String) (label : String)
    (mask : List Bool) : (cohortMetricFor df stats label mask).cohort_name = label := rfl

theorem cohortEntries_keys (df : Table) (stats : List String) (col : String)
    (cells : ColCells) :
    (cohortEntries df stats col cells).map Prod.fst =
      (ColCells.uniqueLabels cells).map (fun s => col ++ "=" ++ s) := by
  cases cells <;>
    simp [cohortEntries, groupInstances, ColCells.uniqueLabels, List.map_map, Function.comp]

theorem cohortCompare_single (df : Table) (stats : List String) (col : String)
    (cells : ColCells) (h : getCol df col = some cells)
    (hnd : ((cohortEntries df stats col cells).map Prod.fst).Nodup) :
    cohortCompare df [col] stats = some (cohortEntries df stats col cells) := by
  simp only [cohortCompare, cohortCompareAux, h]
  rw [dictInsertMany_of_fresh _ _ hnd (by simp)]
  simp [cohortCompareAux]

theorem cohortCompareAux_forall (df : Table) (stats : List String)
    (Q : CohortMetric → Prop)
    (hQ : ∀ label mask, Q (cohortMetricFor df stats label mask)) :
    ∀ (cohorts : List String) (acc res : List (String × CohortMetric)),
      (∀ p ∈ acc, Q p.2) → cohortCompareAux df stats cohorts acc = some res →
      ∀ p ∈ res, Q p.2 := by
  intro cohorts
  induction cohorts with
  | nil =>
    intro acc res hacc h p hp
    simp only [cohortCompareAux, Option.some.injEq] at h
    subst h
    exact hacc p hp
  | cons col rest ih =>
    intro acc res hacc h p hp
    simp only [cohortCompareAux] at h
    cases hg : getCol df col with
    | none => rw [hg] at h; exact absurd h (by simp)
    | some cells =>
      rw [hg] at h
      refine ih _ res ?_ h p hp
      intro q hq
      rcases mem_dictInsertMany _ _ q hq with hq' | hq'
      · exact hacc q hq'
      · simp only [cohortEntries, List.map_map, List.mem_map, Function.comp] at hq'
        rcases hq' with ⟨inst, _, hinst⟩
        rw [← hinst]
        exact hQ _ _

theorem numStatsFor_entries (stats : List String) (cs : List (Option ℚ)) :
    dictGet "mean" (numStatsFor stats cs) =
      (if "mean" ∈ stats then some ((meanQ (validOf cs)).map PyNum.rat) else none) ∧
    dictGet "median" (numStatsFor stats cs) =
      (if "median" ∈ stats then some ((medianQ (validOf cs)).map PyNum.rat) else none) ∧
    dictGet "std" (numStatsFor stats cs) =
      (if "std" ∈ stats then some ((varQ (validOf cs)).map PyNum.sqrtOf) else none) ∧
    dictGet "min" (numStatsFor stats cs) =
      (if "min" ∈ stats then some ((minQ (validOf cs)).map PyNum.rat) else none) ∧
    dictGet "max" (numStatsFor stats cs) =
      (if "max" ∈ stats then some ((maxQ (validOf cs)).map PyNum.rat) else none) := by
  by_cases h1 : "mean" ∈ stats <;> by_cases h2 : "median" ∈ stats <;>
    by_cases h3 : "std" ∈ stats <;> by_cases h4 : "min" ∈ stats <;>
    by_cases h5 : "max" ∈ stats <;>
    simp [numStatsFor, h1, h2, h3, h4, h5, dictGet_cons, dictGet_nil]

theorem numStatsFor_keys (stats : List String) (cs : List (Option ℚ)) :
    (numStatsFor stats cs).map Prod.fst = allStats.filter (fun s => decide (s ∈ stats)) := by
  by_cases h1 : "mean" ∈ stats <;> by_cases h2 : "median" ∈ stats <;>
    by_cases h3 : "std" ∈ stats <;> by_cases h4 : "min" ∈ stats <;>
    by_cases h5 : "max" ∈ stats <;>
    simp [numStatsFor, allStats, List.filter, h1, h2, h3, h4, h5]

theorem varQ_nil : varQ [] = none := rfl

theorem varQ_some_ne_nil (l : List ℚ) (s : ℚ) (h : varQ l = some s) : l ≠ [] := by
  intro hnil
  rw [hnil, varQ_nil] at h
  exact Option.noConfusion h

theorem cohenEffectSize_eq_zero (g1 g2 : List (Option ℚ)) (s1 s2 : ℚ)
    (h1 : varQ (g1.filterMap id) = some s1) (h2 : varQ (g2.filterMap id) = some s2)
    (h0 : (s1 + s2) / 2 = 0) : cohenEffectSize g1 g2 = some (.rat 0) := by
  have hne : ¬(g1.filterMap id = [] ∨ g2.filterMap id = []) := by
    rintro (h | h)
    · exact varQ_some_ne_nil _ _ h1 h
    · exact varQ_some_ne_nil _ _ h2 h
  simp only [cohenEffectSize]
  rw [if_neg hne, h1, h2]
  simp [h0]

theorem cohenEffectSize_eq_divSqrt (g1 g2 : List (Option ℚ)) (s1 s2 : ℚ)
    (h1 : varQ (g1.filterMap id) = some s1) (h2 : varQ (g2.filterMap id) = some s2)
    (h0 : (s1 + s2) / 2 ≠ 0) :
    cohenEffectSize g1 g2 = some (.divSqrt
      ((g1.filterMap id).sum / (g1.filterMap id).length -
       (g2.filterMap id).sum / (g2.filterMap id).length) ((s1 + s2) / 2)) := by
  have hne : ¬(g1.filterMap id = [] ∨ g2.filterMap id = []) := by
    rintro (h | h)
    · exact varQ_some_ne_nil _ _ h1 h
    · exact varQ_some_ne_nil _ _ h2 h
  simp only [cohenEffectSize]
  rw [if_neg hne, h1, h2]
  simp [h0]

/-- C7: `cohenEffectSize` first drops missing values from each sample
independently; if either sample is then empty it returns the NaN sentinel
(`none`), which is distinct from every numeric value including 0; otherwise,
when the pooled standard deviation is zero (both sample variances defined
and averaging to zero), it returns exactly `0.0`. -/
theorem cohenEffectSize_undefined_and_zero_spec :
    (∀ g1 g2 : List (Option ℚ), g1.filterMap id = [] ∨ g2.filterMap id = [] →
      cohenEffectSize g1 g2 = none) ∧
    (∀ (g1 g2 : List (Option ℚ)) (s1 s2 : ℚ),
      varQ (g1.filterMap id) = some s1 → varQ (g2.filterMap id) = some s2 →
      (s1 + s2) / 2 = 0 → cohenEffectSize g1 g2 = some (.rat 0)) ∧
    (∀ x : PyNum, (none : Option PyNum) ≠ some x) := by
  refine ⟨?_, ?_, ?_⟩
  · intro g1 g2 h
    simp only [cohenEffectSize]
    rw [if_pos h]
  · intro g1 g2 s1 s2 h1 h2 h0
    exact cohenEffectSize_eq_zero g1 g2 s1 s2 h1 h2 h0
  · intro x h
    exact Option.noConfusion h

/-- Witness for C7 at concrete inputs: a sample that is all-missing gives the
NaN sentinel, and two constant two-element samples give exactly `0.0`. -/
theorem cohenEffectSize_undefined_and_zero_spec_witness :
    cohenEffectSize [none] [some 1] = none ∧
    cohenEffectSize [some 1, some 1] [some 2, some 2] = some (.rat 0) :=
  ⟨cohenEffectSize_undefined_and_zero_spec.1 [none] [some 1] (Or.inl rfl),
   cohenEffectSize_undefined_and_zero_spec.2.1 [some 1, some 1] [some 2, some 2] 0 0
     (by norm_num [varQ, List.filterMap]) (by norm_num [varQ, List.filterMap])
     (by norm_num)⟩

/-- C9: whenever both samples survive dropping missing values with defined
sample variances and the pooled standard deviation is nonzero,
`cohenEffectSize(g1, g2)` is the negation of `cohenEffectSize(g2, g1)`. -/
theorem cohenEffectSize_antisymm (g1 g2 : List (Option ℚ)) (s1 s2 : ℚ)
    (h1 : varQ (g1.filterMap id) = some s1) (h2 : varQ (g2.filterMap id) = some s2)
    (h0 : (s1 + s2) / 2 ≠ 0) :
    ∃ r : ℝ, (cohenEffectSize g1 g2).map PyNum.toReal = some r ∧
      (cohenEffectSize g2 g1).map PyNum.toReal = some (-r) := by
  have h0' : (s2 + s1) / 2 ≠ 0 := by rw [add_comm]; exact h0
  refine ⟨((g1.filterMap id).sum / (g1.filterMap id).length -
      (g2.filterMap id).sum / (g2.filterMap id).length : ℚ) /
      Real.sqrt (((s1 + s2) / 2 : ℚ) : ℝ), ?_, ?_⟩
  · rw [cohenEffectSize_eq_divSqrt g1 g2 s1 s2 h1 h2 h0]
    simp [PyNum.toReal]
  · rw [cohenEffectSize_eq_divSqrt g2 g1 s2 s1 h2 h1 h0']
    simp only [Option.map_some', PyNum.toReal, Option.some.injEq]
    rw [add_comm s2 s1, ← neg_div]
    push_cast
    ring_nf

/-- Witness for C9 at the concrete samples [1,2] and [3,5]. -/
theorem cohenEffectSize_antisymm_witness :
    ∃ r : ℝ, (cohenEffectSize [some 1, some 2] [some 3, some 5]).map PyNum.toReal = some r ∧
      (cohenEffectSize [some 3, some 5] [some 1, some 2]).map PyNum.toReal = some (-r) :=
  cohenEffectSize_antisymm [some 1, some 2] [some 3, some 5] (1/2) 2
    (by norm_num [varQ, List.filterMap]) (by norm_num [varQ, List.filterMap]) (by norm_num)

/-- C6: `age_splitter(T, C, t)` returns the two boolean-mask selections
`C < t` and `C >= t`.  The two masks are disjoint, and together they cover
exactly the rows whose `C` value is non-missing; every row of the first
output has `C < t`, every row of the second has `C >= t`, a row with a
missing `C` appears in neither; per column, the two outputs are
subsequences of the input (original relative order) and their concatenation
is a permutation of the non-missing-in-`C` row selection. -/
theorem age_splitter_partition_spec (df : Table) (c : String) (t : ℚ)
    (cs : List (Option ℚ)) (h : getCol df c = some (.numeric cs)) :
    age_splitter df c t =
      some (maskTable (cs.map (ltMaskP t)) df, maskTable (cs.map (geMaskP t)) df) ∧
    (∀ o : Option ℚ, ltMaskP t o = true ↔ ∃ v, o = some v ∧ v < t) ∧
    (∀ o : Option ℚ, geMaskP t o = true ↔ ∃ v, o = some v ∧ t ≤ v) ∧
    (∀ o : Option ℚ, ¬(ltMaskP t o = true ∧ geMaskP t o = true)) ∧
    (∀ o : Option ℚ, (ltMaskP t o || geMaskP t o) = o.isSome) ∧
    getCol (maskTable (cs.map (ltMaskP t)) df) c =
      some (.numeric (cs.filter (ltMaskP t))) ∧
    getCol (maskTable (cs.map (geMaskP t)) df) c =
      some (.numeric (cs.filter (geMaskP t))) ∧
    (∀ (α : Type) (ds : List α),
      (applyMask (cs.map (ltMaskP t)) ds ++ applyMask (cs.map (geMaskP t)) ds).Perm
          (applyMask (cs.map Option.isSome) ds) ∧
      (applyMask (cs.map (ltMaskP t)) ds).Sublist ds ∧
      (applyMask (cs.map (geMaskP t)) ds).Sublist ds) := by
  have hdisj : ∀ o : Option ℚ, ¬(ltMaskP t o = true ∧ geMaskP t o = true) := by
    intro o
    cases o with
    | none => simp [ltMaskP, geMaskP]
    | some v =>
      simp only [ltMaskP, geMaskP, decide_eq_true_eq]
      exact fun hv => absurd hv.2 (not_le.mpr hv.1)
  have hcover : ∀ o : Option ℚ, (ltMaskP t o || geMaskP t o) = o.isSome := by
    intro o
    cases o with
    | none => simp [ltMaskP, geMaskP]
    | some v =>
      simp only [ltMaskP, geMaskP, Option.isSome_some, Bool.or_eq_true, decide_eq_true_eq]
      exact lt_or_le v t
  refine ⟨?_, ?_, ?_, hdisj, hcover, ?_, ?_, ?_⟩
  · unfold age_splitter
    rw [h]
  · intro o
    cases o with
    | none => simp [ltMaskP]
    | some v => simp [ltMaskP]
  · intro o
    cases o with
    | none => simp [geMaskP]
    | some v => simp [geMaskP]
  · rw [getCol_maskTable, h]
    simp [maskColCells, applyMask_map_self]
  · rw [getCol_maskTable, h]
    simp [maskColCells, applyMask_map_self]
  · intro α ds
    exact ⟨applyMask_partition_perm (ltMaskP t) (geMaskP t) Option.isSome hdisj hcover cs ds,
      applyMask_sublist _ _, applyMask_sublist _ _⟩

/-- Witness for C6 on a concrete table with a missing age. -/
theorem age_splitter_partition_spec_witness :
    age_splitter exTableAge "age" 3 =
      some (maskTable ([some 1, some 5, none].map (ltMaskP 3)) exTableAge,
            maskTable ([some 1, some 5, none].map (geMaskP 3)) exTableAge) ∧
    getCol (maskTable ([some 1, some 5, none].map (ltMaskP 3)) exTableAge) "age" =
      some (.numeric ([some 1, some 5, none].filter (ltMaskP 3))) ∧
    ([some 1, some 5, none] : List (Option ℚ)).filter (ltMaskP 3) = [some 1] ∧
    ([some 1, some 5, none] : List (Option ℚ)).filter (geMaskP 3) = [some 5] :=
  ⟨(age_splitter_partition_spec exTableAge "age" 3 [some 1, some 5, none] rfl).1,
   (age_splitter_partition_spec exTableAge "age" 3 [some 1, some 5, none] rfl).2.2.2.2.2.1,
   by decide, by decide⟩

theorem effectSizer_fst (df : Table) (num cat : String) (cells : ColCells)
    (h : getCol df cat = some cells) :
    (effectSizer df num cat).1 =
      setCol df cat (.categorical ((cleanedCol cells).map some)) := by
  unfold effectSizer
  rw [h]
  rcases hu : uniqueList (cleanedCol cells) with _ | ⟨a, _ | ⟨b, _ | ⟨c, tl⟩⟩⟩
  · simp [hu]
  · simp [hu]
  · simp only [hu]
    rcases hg : getCol (setCol df cat (.categorical ((cleanedCol cells).map some))) num with
      _ | cc
    · simp [hg]
    · cases cc with
      | numeric ncs =>
        simp only [hg]
        rcases hv1 : varQ (validOf (applyMask ((cleanedCol cells).map
            (fun s => decide (s = a))) ncs)) with _ | s1 <;>
          rcases hv2 : varQ (validOf (applyMask ((cleanedCol cells).map
            (fun s => decide (s = b))) ncs)) with _ | s2 <;>
          simp only [hv1, hv2] <;>
          first
          | rfl
          | (split <;> rfl)
      | categorical ccs => simp only [hg]
  · simp [hu]

/-- C5 counterexample: `effectSizer` is NOT side-effect-free — the line
`df[cat_col] = df[cat_col].astype(str).str.strip()` changes the caller's
table: on a table whose "cat" column holds " a " (with whitespace), the
table after the call differs from the table before it. -/
theorem effectSizer_mutation_counterexample :
    (effectSizer exTableSpace "num" "cat").1 ≠ exTableSpace := by decide

/-- C5 (amended): `age_splitter`, `cohenEffectSize` and `cohortCompare` are
pure, but `effectSizer`'s call leaves the table with its categorical column
replaced by the string-coerced, whitespace-stripped form; every other
column is unchanged. -/
theorem effectSizer_frame_spec (df : Table) (num cat : String) (cells : ColCells)
    (h : getCol df cat = some cells) :
    (effectSizer df num cat).1 =
      setCol df cat (.categorical ((cleanedCol cells).map some)) ∧
    (∀ c : String, c ≠ cat →
      getCol ((effectSizer df num cat).1) c = getCol df c) := by
  refine ⟨effectSizer_fst df num cat cells h, ?_⟩
  intro c hc
  rw [effectSizer_fst df num cat cells h]
  exact getCol_setCol_ne df cat c _ hc

/-- Witness for the amended C5 on the whitespace table: the mutated table is
exactly the cleaned-column update, and the numeric column is untouched. -/
theorem effectSizer_frame_spec_witness :
    (effectSizer exTableSpace "num" "cat").1 =
      setCol exTableSpace "cat"
        (.categorical ((cleanedCol (.categorical [some " a ", some "b"])).map some)) ∧
    getCol ((effectSizer exTableSpace "num" "cat").1) "num" = getCol exTableSpace "num" :=
  ⟨(effectSizer_frame_spec exTableSpace "num" "cat"
      (.categorical [some " a ", some "b"]) rfl).1,
   (effectSizer_frame_spec exTableSpace "num" "cat"
      (.categorical [some " a ", some "b"]) rfl).2 "num" (by decide)⟩

/-- C4 counterexample: on a table whose categorical column has ONE distinct
non-missing value plus missing values, the claim demands a ValidationError,
but the code coerces NaN to the string "nan" before counting distinct
values, finds two "values" ("a" and "nan"), and returns 0 instead of
raising. -/
theorem effectSizer_validation_counterexample :
    (distinctNonMissing [some "a", none, none]).length = 1 ∧
    getCol exTableOneDistinct "cat" = some (.categorical [some "a", none, none]) ∧
    (effectSizer exTableOneDistinct "num" "cat").2 = .ok (.rat 0) :=
  ⟨by decide, by decide, by decide⟩

/-- C4 (amended): `effectSizer` raises the ValidationError exactly when the
count of distinct values of the CLEANED categorical column (strings after
`astype(str).str.strip()`, missing values included as "nan") is not two,
and the error carries the offending column name and those observed distinct
values. -/
theorem effectSizer_validation_spec (df : Table) (num cat : String) (cells : ColCells)
    (h : getCol df cat = some cells) :
    ((uniqueList (cleanedCol cells)).length ≠ 2 →
      (effectSizer df num cat).2 =
        .error (.valueError cat (uniqueList (cleanedCol cells)))) ∧
    ((uniqueList (cleanedCol cells)).length = 2 →
      isValueError (effectSizer df num cat).2 = false) := by
  constructor
  · intro hne
    unfold effectSizer
    rw [h]
    rcases hu : uniqueList (cleanedCol cells) with _ | ⟨a, _ | ⟨b, _ | ⟨c, tl⟩⟩⟩
    · simp [hu]
    · simp [hu]
    · rw [hu] at hne
      exact absurd rfl hne
    · simp [hu]
  · intro h2
    unfold effectSizer
    rw [h]
    rcases hu : uniqueList (cleanedCol cells) with _ | ⟨a, _ | ⟨b, _ | ⟨c, tl⟩⟩⟩
    · rw [hu] at h2
      simp only [List.length_nil] at h2
      omega
    · rw [hu] at h2
      simp only [List.length_cons, List.length_nil] at h2
      omega
    · simp only [hu]
      rcases hg : getCol (setCol df cat (.categorical ((cleanedCol cells).map some))) num with
        _ | cc
      · simp [hg, isValueError]
      · cases cc with
        | numeric ncs =>
          simp only [hg]
          rcases hv1 : varQ (validOf (applyMask ((cleanedCol cells).map
              (fun s => decide (s = a))) ncs)) with _ | s1 <;>
            rcases hv2 : varQ (validOf (applyMask ((cleanedCol cells).map
              (fun s => decide (s = b))) ncs)) with _ | s2 <;>
            simp only [hv1, hv2] <;>
            first
            | (split <;> simp [isValueError])
            | (simp [isValueError])
        | categorical ccs => simp [hg, isValueError]
    · rw [hu] at h2
      simp only [List.length_cons, List.length_nil] at h2
      omega

/-- Witness for the amended C4: ["a","b","c"] raises (with column name and
observed values carried), ["a","a","a"] raises, and a clean binary column
does not raise. -/
theorem effectSizer_validation_spec_witness :
    (effectSizer exTableThree "num" "cat").2 =
      .error (.valueError "cat"
        (uniqueList (cleanedCol (.categorical [some "a", some "b", some "c"])))) ∧
    uniqueList (cleanedCol (.categorical [some "a", some "b", some "c"])) =
      ["a", "b", "c"] ∧
    (effectSizer exTableAAA "num" "cat").2 =
      .error (.valueError "cat"
        (uniqueList (cleanedCol (.categorical [some "a", some "a", some "a"])))) ∧
    uniqueList (cleanedCol (.categorical [some "a", some "a", some "a"])) = ["a"] ∧
    isValueError (effectSizer exTableBinary "num" "cat").2 = false :=
  ⟨(effectSizer_validation_spec exTableThree "num" "cat"
      (.categorical [some "a", some "b", some "c"]) rfl).1 (by decide),
   by decide,
   (effectSizer_validation_spec exTableAAA "num" "cat"
      (.categorical [some "a", some "a", some "a"]) rfl).1 (by decide),
   by decide,
   (effectSizer_validation_spec exTableBinary "num" "cat"
      (.categorical [some "a", some "a", some "b", some "b"]) rfl).2 (by decide)⟩

/-- C8: on a table whose cleaned categorical column has exactly the two
distinct values `[a, b]`, with a numeric column distinct from it,
`effectSizer` returns 0 — not an error — whenever either group's sample
variance is undefined (a group with fewer than two observations) or the
pooled variance is zero; otherwise it returns Cohen's d, whose real value
is (mean1 − mean2) / sqrt((std1² + std2²) / 2) with each group's mean and
sample standard deviation taken over the group's non-missing values. -/
theorem effectSizer_cohens_d_spec (df : Table) (num cat : String) (cells : ColCells)
    (ncs : List (Option ℚ)) (a b : String)
    (hcat : getCol df cat = some cells)
    (hnum : getCol df num = some (.numeric ncs))
    (hnc : num ≠ cat)
    (hu : uniqueList (cleanedCol cells) = [a, b]) :
    ((varQ (validOf (applyMask ((cleanedCol cells).map (fun s => decide (s = a))) ncs)) = none ∨
      varQ (validOf (applyMask ((cleanedCol cells).map (fun s => decide (s = b))) ncs)) = none) →
      (effectSizer df num cat).2 = .ok (.rat 0)) ∧
    (∀ s1 s2 : ℚ,
      varQ (validOf (applyMask ((cleanedCol cells).map (fun s => decide (s = a))) ncs)) =
        some s1 →
      varQ (validOf (applyMask ((cleanedCol cells).map (fun s => decide (s = b))) ncs)) =
        some s2 →
      (((s1 + s2) / 2 = 0 → (effectSizer df num cat).2 = .ok (.rat 0)) ∧
       ((s1 + s2) / 2 ≠ 0 →
         (effectSizer df num cat).2 = .ok (.divSqrt
           ((validOf (applyMask ((cleanedCol cells).map (fun s => decide (s = a))) ncs)).sum /
              (validOf (applyMask ((cleanedCol cells).map (fun s => decide (s = a))) ncs)).length -
            (validOf (applyMask ((cleanedCol cells).map (fun s => decide (s = b))) ncs)).sum /
              (validOf (applyMask ((cleanedCol cells).map (fun s => decide (s = b))) ncs)).length)
           ((s1 + s2) / 2)) ∧
         ∀ d : ℚ, PyNum.toReal (.divSqrt d ((s1 + s2) / 2)) =
           (d : ℝ) / Real.sqrt ((Real.sqrt (s1 : ℝ) ^ 2 + Real.sqrt (s2 : ℝ) ^ 2) / 2)))) := by
  have hg2 : getCol (setCol df cat (.categorical ((cleanedCol cells).map some))) num =
      some (.numeric ncs) := by
    rw [getCol_setCol_ne df cat num _ hnc]
    exact hnum
  constructor
  · intro hnone
    unfold effectSizer
    rw [hcat]
    simp only [hu, hg2]
    rcases hnone with h1 | h1
    · simp [h1]
    · rcases hv1 : varQ (validOf (applyMask ((cleanedCol cells).map
          (fun s => decide (s = a))) ncs)) with _ | s1 <;> simp [hv1, h1]
  · intro s1 s2 hv1 hv2
    have hs1 : (0 : ℝ) ≤ (s1 : ℝ) := by exact_mod_cast varQ_nonneg _ s1 hv1
    have hs2 : (0 : ℝ) ≤ (s2 : ℝ) := by exact_mod_cast varQ_nonneg _ s2 hv2
    refine ⟨?_, ?_⟩
    · intro h0
      unfold effectSizer
      rw [hcat]
      simp only [hu, hg2, hv1, hv2]
      simp [h0]
    · intro h0
      refine ⟨?_, ?_⟩
      · unfold effectSizer
        rw [hcat]
        simp only [hu, hg2, hv1, hv2]
        simp [h0]
      · intro d
        simp only [PyNum.toReal]
        rw [Real.sq_sqrt hs1, Real.sq_sqrt hs2]
        push_cast
        ring_nf

/-- Witness for C8: groups [1,2] and [3,4] give Cohen's d = −2 / sqrt(1/2)
(stored as `divSqrt (−2) (1/2)`); constant groups give exactly 0; a group
with a single observation gives 0 (undefined pooled std), none of them an
error. -/
theorem effectSizer_cohens_d_spec_witness :
    (effectSizer exTableBinary "num" "cat").2 = .ok (.divSqrt (-2) (1/2)) ∧
    (effectSizer exTableConst "num" "cat").2 = .ok (.rat 0) ∧
    (effectSizer exTableOneObs "num" "cat").2 = .ok (.rat 0) := by
  have e1 : validOf (applyMask ((cleanedCol
      (.categorical [some "a", some "a", some "b", some "b"])).map
      (fun s => decide (s = "a"))) [some 1, some 2, some 3, some 4]) = [1, 2] := by decide
  have e2 : validOf (applyMask ((cleanedCol
      (.categorical [some "a", some "a", some "b", some "b"])).map
      (fun s => decide (s = "b"))) [some 1, some 2, some 3, some 4]) = [3, 4] := by decide
  have hv1 : varQ (validOf (applyMask ((cleanedCol
      (.categorical [some "a", some "a", some "b", some "b"])).map
      (fun s => decide (s = "a"))) [some 1, some 2, some 3, some 4])) = some (1/2) := by
    rw [e1]; norm_num [varQ]
  have hv2 : varQ (validOf (applyMask ((cleanedCol
      (.categorical [some "a", some "a", some "b", some "b"])).map
      (fun s => decide (s = "b"))) [some 1, some 2, some 3, some 4])) = some (1/2) := by
    rw [e2]; norm_num [varQ]
  have h := effectSizer_cohens_d_spec exTableBinary "num" "cat"
    (.categorical [some "a", some "a", some "b", some "b"]) [some 1, some 2, some 3, some 4]
    "a" "b" rfl rfl (by decide) (by decide)
  have hmain := ((h.2 (1/2) (1/2) hv1 hv2).2 (by norm_num)).1
  refine ⟨?_, ?_, ?_⟩
  · rw [hmain, e1, e2]
    norm_num
  · have ec1 : validOf (applyMask ((cleanedCol
        (.categorical [some "a", some "a", some "b", some "b"])).map
        (fun s => decide (s = "a"))) [some 1, some 1, some 2, some 2]) = [1, 1] := by decide
    have ec2 : validOf (applyMask ((cleanedCol
        (.categorical [some "a", some "a", some "b", some "b"])).map
        (fun s => decide (s = "b"))) [some 1, some 1, some 2, some 2]) = [2, 2] := by decide
    have hc := effectSizer_cohens_d_spec exTableConst "num" "cat"
      (.categorical [some "a", some "a", some "b", some "b"])
      [some 1, some 1, some 2, some 2] "a" "b" rfl rfl (by decide) (by decide)
    exact (hc.2 0 0 (by rw [ec1]; norm_num [varQ]) (by rw [ec2]; norm_num [varQ])).1
      (by norm_num)
  · have ho := effectSizer_cohens_d_spec exTableOneObs "num" "cat"
      (.categorical [some "a", some "b"]) [some 1, some 2] "a" "b" rfl rfl
      (by decide) (by decide)
    refine ho.1 (Or.inl ?_)
    have eo : validOf (applyMask ((cleanedCol
        (.categorical [some "a", some "b"])).map
        (fun s => decide (s = "a"))) [some 1, some 2]) = [1] := by decide
    rw [eo]
    rfl

theorem buildFive_statistics (label : String) (v1 v2 v3 v4 v5 : StatVal) :
    (buildFive label v1 v2 v3 v4 v5).statistics =
      [("mean", v1), ("median", v2), ("std", v3), ("min", v4), ("max", v5)] := by
  simp [buildFive, CohortMetric.init, CohortMetric.setMean, CohortMetric.setMedian,
    CohortMetric.setStd, CohortMetric.setMin, CohortMetric.setMax, dictSet]

/-- C3 counterexample: comparing two default-constructed metrics does not
return a boolean — the stored `None` placeholders have no `equals` method,
so `compare_to` raises AttributeError on the very first slot. -/
theorem compare_to_raises_counterexample :
    (CohortMetric.init "a").compare_to (CohortMetric.init "b") =
      .error .attributeError := by decide

/-- C3 (amended): `compare_to` iterates over self's statistic keys calling
`.equals` on each stored value.  When a stored value of self lacks an
`equals` method (Python `None`, numbers, plain dicts — in particular every
default-constructed or batch-engine metric) it raises AttributeError
rather than returning `False`.  When every stored value of self is a
pandas Series (five-slot setter path with Series payloads) it does return
a boolean: `True` iff each slot's two series are `.equals`-equal, `False`
as soon as one slot differs. -/
theorem compare_to_equality_spec (la lb : String)
    (s1 s2 s3 s4 s5 t1 t2 t3 t4 t5 : List (Option ℚ)) :
    ((buildFive la (.pySeries s1) (.pySeries s2) (.pySeries s3) (.pySeries s4)
        (.pySeries s5)).compare_to
      (buildFive lb (.pySeries t1) (.pySeries t2) (.pySeries t3) (.pySeries t4)
        (.pySeries t5)) = .ok true ↔
      (s1 = t1 ∧ s2 = t2 ∧ s3 = t3 ∧ s4 = t4 ∧ s5 = t5)) ∧
    ((buildFive la (.pySeries s1) (.pySeries s2) (.pySeries s3) (.pySeries s4)
        (.pySeries s5)).compare_to
      (buildFive lb (.pySeries t1) (.pySeries t2) (.pySeries t3) (.pySeries t4)
        (.pySeries t5)) = .ok true ∨
     (buildFive la (.pySeries s1) (.pySeries s2) (.pySeries s3) (.pySeries s4)
        (.pySeries s5)).compare_to
      (buildFive lb (.pySeries t1) (.pySeries t2) (.pySeries t3) (.pySeries t4)
        (.pySeries t5)) = .ok false) ∧
    (∀ (df : Table) (stats : List String) (label : String) (mask : List Bool)
       (df' : Table) (stats' : List String) (label' : String) (mask' : List Bool),
      (cohortMetricFor df stats label mask).compare_to
        (cohortMetricFor df' stats' label' mask') = .error .attributeError) := by
  refine ⟨?_, ?_, ?_⟩
  · by_cases h1 : s1 = t1 <;> by_cases h2 : s2 = t2 <;> by_cases h3 : s3 = t3 <;>
      by_cases h4 : s4 = t4 <;> by_cases h5 : s5 = t5 <;>
      simp [CohortMetric.compare_to, buildFive_statistics, compareList, dictGet_cons,
        StatVal.equalsMethod, h1, h2, h3, h4, h5]
  · by_cases h1 : s1 = t1 <;> by_cases h2 : s2 = t2 <;> by_cases h3 : s3 = t3 <;>
      by_cases h4 : s4 = t4 <;> by_cases h5 : s5 = t5 <;>
      simp [CohortMetric.compare_to, buildFive_statistics, compareList, dictGet_cons,
        StatVal.equalsMethod, h1, h2, h3, h4, h5]
  · intro df stats label mask df' stats' label' mask'
    simp [CohortMetric.compare_to, cohortMetricFor_statistics, compareList, dictGet_cons,
      StatVal.equalsMethod]

theorem pandasEq_none {α : Type} [DecidableEq α] (c : Option α) :
    pandasEq c (none : Option α) = false := by
  cases c <;> rfl

/-- C1 counterexample: a missing value in the grouping column DOES form its
own result entry — `df[cohort_col].unique()` keeps NaN, and the label
"group=nan" appears among the keys returned by `cohortCompare` for a
grouping column holding ["x", NaN]. -/
theorem cohortCompare_missing_label_counterexample :
    (cohortCompare exTableNan ["group"] allStats).map (List.map Prod.fst) =
      some ["group=x", "group=nan"] ∧
    ColCells.hasMissing (.categorical [some "x", none]) = true ∧
    getCol exTableNan "group" = some (.categorical [some "x", none]) :=
  ⟨by decide, by decide, by decide⟩

/-- C1 (amended): every non-missing distinct value of a grouping column
yields exactly one cohort key (result keys are distinct, absent label
collisions), but missing values are NOT excluded from partitioning:
`unique()` keeps NaN, so a column containing a missing value contributes an
additional result entry labelled `<col>=nan`, and the NaN value's row mask
(`df[col] == nan`) selects no rows, so that extra cohort is empty. -/
theorem cohortCompare_nan_cohort_spec (df : Table) (col : String) (cells : ColCells)
    (stats : List String) (h : getCol df col = some cells)
    (hnd : ((ColCells.uniqueLabels cells).map (fun s => col ++ "=" ++ s)).Nodup) :
    cohortCompare df [col] stats = some (cohortEntries df stats col cells) ∧
    (cohortEntries df stats col cells).map Prod.fst =
      (ColCells.uniqueLabels cells).map (fun s => col ++ "=" ++ s) ∧
    ((cohortEntries df stats col cells).map Prod.fst).Nodup ∧
    (cells.hasMissing = true →
      (col ++ "=" ++ "nan") ∈ (cohortEntries df stats col cells).map Prod.fst) ∧
    (∀ (cs : List (Option String)) (s : String), cells = .categorical cs →
      some s ∈ cs →
      (col ++ "=" ++ s) ∈ (cohortEntries df stats col cells).map Prod.fst) ∧
    (∀ (cs : List (Option String)), cells = .categorical cs → none ∈ cs →
      ("nan", cs.map (fun c => pandasEq c none)) ∈ groupInstances cells ∧
      cs.map (fun c => pandasEq c (none : Option String)) = cs.map (fun _ => false)) := by
  have hkeys := cohortEntries_keys df stats col cells
  refine ⟨cohortCompare_single df stats col cells h (by rw [hkeys]; exact hnd),
    hkeys, by rw [hkeys]; exact hnd, ?_, ?_, ?_⟩
  · intro hm
    rw [hkeys]
    simp only [List.mem_map]
    refine ⟨"nan", ?_, rfl⟩
    cases cells with
    | numeric cs =>
      simp only [ColCells.hasMissing, List.any_eq_true] at hm
      rcases hm with ⟨o, ho, hno⟩
      have ho' : o = none := by cases o <;> simp_all
      subst ho'
      simp only [ColCells.uniqueLabels, List.mem_map]
      exact ⟨none, (mem_uniqueList _ _).mpr ho, rfl⟩
    | categorical cs =>
      simp only [ColCells.hasMissing, List.any_eq_true] at hm
      rcases hm with ⟨o, ho, hno⟩
      have ho' : o = none := by cases o <;> simp_all
      subst ho'
      simp only [ColCells.uniqueLabels, List.mem_map]
      exact ⟨none, (mem_uniqueList _ _).mpr ho, rfl⟩
  · intro cs s hc hs
    subst hc
    rw [hkeys]
    simp only [List.mem_map]
    refine ⟨s, ?_, rfl⟩
    simp only [ColCells.uniqueLabels, List.mem_map]
    exact ⟨some s, (mem_uniqueList _ _).mpr hs, rfl⟩
  · intro cs hc hn
    subst hc
    constructor
    · simp only [groupInstances, List.mem_map]
      exact ⟨none, (mem_uniqueList _ _).mpr hn, rfl⟩
    · simp [pandasEq_none]

/-- Witness for the amended C1 on the ["x", NaN] grouping column. -/
theorem cohortCompare_nan_cohort_spec_witness :
    cohortCompare exTableNan ["group"] allStats =
      some (cohortEntries exTableNan allStats "group" (.categorical [some "x", none])) ∧
    ("group" ++ "=" ++ "nan") ∈
      (cohortEntries exTableNan allStats "group"
        (.categorical [some "x", none])).map Prod.fst ∧
    ("nan", [some "x", none].map (fun c => pandasEq c (none : Option String))) ∈
      groupInstances (.categorical [some "x", none]) :=
  ⟨(cohortCompare_nan_cohort_spec exTableNan "group" (.categorical [some "x", none])
      allStats rfl (by decide)).1,
   (cohortCompare_nan_cohort_spec exTableNan "group" (.categorical [some "x", none])
      allStats rfl (by decide)).2.2.2.1 (by decide),
   ((cohortCompare_nan_cohort_spec exTableNan "group" (.categorical [some "x", none])
      allStats rfl (by decide)).2.2.2.2.2 [some "x", none] rfl (by decide)).1⟩

/-- C10: every `CohortMetric` in a `cohortCompare` result still holds the
five default placeholder keys mapped to `None` — the batch path only ADDS
the `numeric_stats` and `counts` keys to the default-constructed dict. -/
theorem cohortCompare_placeholder_slots (df : Table) (cohorts stats : List String)
    (res : List (String × CohortMetric)) (h : cohortCompare df cohorts stats = some res) :
    ∀ p ∈ res,
      dictGet "mean" p.2.statistics = some .pyNone ∧
      dictGet "median" p.2.statistics = some .pyNone ∧
      dictGet "std" p.2.statistics = some .pyNone ∧
      dictGet "min" p.2.statistics = some .pyNone ∧
      dictGet "max" p.2.statistics = some .pyNone ∧
      (∃ nd, dictGet "numeric_stats" p.2.statistics = some (.numDict nd)) ∧
      (∃ cd, dictGet "counts" p.2.statistics = some (.cntDict cd)) := by
  intro p hp
  refine cohortCompareAux_forall df stats
    (fun m =>
      dictGet "mean" m.statistics = some .pyNone ∧
      dictGet "median" m.statistics = some .pyNone ∧
      dictGet "std" m.statistics = some .pyNone ∧
      dictGet "min" m.statistics = some .pyNone ∧
      dictGet "max" m.statistics = some .pyNone ∧
      (∃ nd, dictGet "numeric_stats" m.statistics = some (.numDict nd)) ∧
      (∃ cd, dictGet "counts" m.statistics = some (.cntDict cd)))
    ?_ cohorts [] res (by simp) h p hp
  intro label mask
  simp [cohortMetricFor_statistics, dictGet_cons]

/-- Witness for C10: the "group=x" metric of a concrete run keeps all five
`None` placeholders next to its `numeric_stats` and `counts` entries. -/
theorem cohortCompare_placeholder_slots_witness :
    dictGet "mean" (cohortMetricFor exTableNan allStats ("group" ++ "=" ++ "x")
      ([some "x", none].map (fun c => pandasEq c (some "x")))).statistics = some .pyNone ∧
    dictGet "median" (cohortMetricFor exTableNan allStats ("group" ++ "=" ++ "x")
      ([some "x", none].map (fun c => pandasEq c (some "x")))).statistics = some .pyNone ∧
    dictGet "std" (cohortMetricFor exTableNan allStats ("group" ++ "=" ++ "x")
      ([some "x", none].map (fun c => pandasEq c (some "x")))).statistics = some .pyNone ∧
    dictGet "min" (cohortMetricFor exTableNan allStats ("group" ++ "=" ++ "x")
      ([some "x", none].map (fun c => pandasEq c (some "x")))).statistics = some .pyNone ∧
    dictGet "max" (cohortMetricFor exTableNan allStats ("group" ++ "=" ++ "x")
      ([some "x", none].map (fun c => pandasEq c (some "x")))).statistics = some .pyNone ∧
    (∃ nd, dictGet "numeric_stats" (cohortMetricFor exTableNan allStats ("group" ++ "=" ++ "x")
      ([some "x", none].map (fun c => pandasEq c (some "x")))).statistics =
        some (.numDict nd)) ∧
    (∃ cd, dictGet "counts" (cohortMetricFor exTableNan allStats ("group" ++ "=" ++ "x")
      ([some "x", none].map (fun c => pandasEq c (some "x")))).statistics =
        some (.cntDict cd)) :=
  cohortCompare_placeholder_slots exTableNan ["group"] allStats
    (cohortEntries exTableNan allStats "group" (.categorical [some "x", none])) rfl
    ("group" ++ "=" ++ "x", cohortMetricFor exTableNan allStats ("group" ++ "=" ++ "x")
      ([some "x", none].map (fun c => pandasEq c (some "x"))))
    (List.mem_cons_self _ _)

/-- C2: every metric in a `cohortCompare` result is the inner-loop build
`cohortMetricFor`; its `numeric_stats` holds one entry per numeric column
carrying exactly the requested statistics, each computed over the cohort's
non-missing values (std the sample standard deviation with divisor n−1),
and `counts` maps, per categorical column, each observed category value to
its occurrence count.  On the spec's example table the result has keys
"group=x" and "group=y" with val-means 2.0 and 5.0 and val-min 1, val-max 3
for "group=x"; a cohort with categorical values [a, a, b] counts
{a: 2, b: 1}. -/
theorem cohortCompare_stats_spec :
    (∀ (df : Table) (cohorts stats : List String) (res : List (String × CohortMetric)),
      cohortCompare df cohorts stats = some res → ∀ p ∈ res,
        ∃ label mask, p.2 = cohortMetricFor df stats label mask) ∧
    (∀ (df : Table) (stats : List String) (label : String) (mask : List Bool),
      getNumericStats (cohortMetricFor df stats label mask) =
        some ((numericCols df).map
          (fun q => (q.1, numStatsFor stats (applyMask mask q.2)))) ∧
      getCounts (cohortMetricFor df stats label mask) =
        some ((categoricalCols df).map
          (fun q => (q.1, valueCounts (applyMask mask q.2))))) ∧
    (∀ (stats : List String) (cs : List (Option ℚ)),
      (numStatsFor stats cs).map Prod.fst = allStats.filter (fun s => decide (s ∈ stats))) ∧
    (∀ (stats : List String) (cs : List (Option ℚ)),
      dictGet "mean" (numStatsFor stats cs) =
        (if "mean" ∈ stats then some ((meanQ (validOf cs)).map PyNum.rat) else none) ∧
      dictGet "median" (numStatsFor stats cs) =
        (if "median" ∈ stats then some ((medianQ (validOf cs)).map PyNum.rat) else none) ∧
      dictGet "std" (numStatsFor stats cs) =
        (if "std" ∈ stats then some ((varQ (validOf cs)).map PyNum.sqrtOf) else none) ∧
      dictGet "min" (numStatsFor stats cs) =
        (if "min" ∈ stats then some ((minQ (validOf cs)).map PyNum.rat) else none) ∧
      dictGet "max" (numStatsFor stats cs) =
        (if "max" ∈ stats then some ((maxQ (validOf cs)).map PyNum.rat) else none)) ∧
    (∀ l : List ℚ, 2 ≤ l.length →
      varQ l = some ((l.map (fun x => (x - l.sum / l.length) ^ 2)).sum /
        ((l.length : ℚ) - 1))) ∧
    (∀ (cs : List (Option String)) (v : String),
      dictGet v (valueCounts cs) =
        if v ∈ cs.filterMap id then some ((cs.filterMap id).count v) else none) ∧
    ((cohortCompare exTable ["group"] allStats).map (List.map Prod.fst) =
      some ["group=x", "group=y"]) ∧
    lookupNumStat (cohortCompare exTable ["group"] allStats) "group=x" "val" "mean" =
      some (some (.rat 2)) ∧
    lookupNumStat (cohortCompare exTable ["group"] allStats) "group=y" "val" "mean" =
      some (some (.rat 5)) ∧
    lookupNumStat (cohortCompare exTable ["group"] allStats) "group=x" "val" "min" =
      some (some (.rat 1)) ∧
    lookupNumStat (cohortCompare exTable ["group"] allStats) "group=x" "val" "max" =
      some (some (.rat 3)) ∧
    lookupCount (cohortCompare exTableCat ["group"] allStats) "group=g" "cat" "a" =
      some 2 ∧
    lookupCount (cohortCompare exTableCat ["group"] allStats) "group=g" "cat" "b" =
      some 1 := by
  refine ⟨?_, ?_, numStatsFor_keys, numStatsFor_entries, ?_, dictGet_valueCounts,
    by decide, ?_, ?_, ?_, ?_, by decide, by decide⟩
  · intro df cohorts stats res h p hp
    exact cohortCompareAux_forall df stats
      (fun m => ∃ label mask, m = cohortMetricFor df stats label mask)
      (fun label mask => ⟨label, mask, rfl⟩) cohorts [] res (by simp) h p hp
  · intro df stats label mask
    constructor
    · simp [getNumericStats, cohortMetricFor_statistics, dictGet_cons]
    · simp [getCounts, cohortMetricFor_statistics, dictGet_cons]
  · intro l hl
    unfold varQ
    rw [if_neg (by omega)]
  · have h : lookupNumStat (cohortCompare exTable ["group"] allStats) "group=x" "val"
        "mean" = some ((meanQ (validOf (applyMask [true, true, true, false, false, false]
        [some 1, some 2, some 3, some 4, some 5, some 6]))).map PyNum.rat) := rfl
    rw [h]
    norm_num [applyMask, validOf, meanQ, List.filterMap]
    decide
  · have h : lookupNumStat (cohortCompare exTable ["group"] allStats) "group=y" "val"
        "mean" = some ((meanQ (validOf (applyMask [false, false, false, true, true, true]
        [some 1, some 2, some 3, some 4, some 5, some 6]))).map PyNum.rat) := rfl
    rw [h]
    norm_num [applyMask, validOf, meanQ, List.filterMap]
    decide
  · have h : lookupNumStat (cohortCompare exTable ["group"] allStats) "group=x" "val"
        "min" = some ((minQ (validOf (applyMask [true, true, true, false, false, false]
        [some 1, some 2, some 3, some 4, some 5, some 6]))).map PyNum.rat) := rfl
    rw [h]
    simp [applyMask, validOf, List.filterMap, minQ]
  · have h : lookupNumStat (cohortCompare exTable ["group"] allStats) "group=x" "val"
        "max" = some ((maxQ (validOf (applyMask [true, true, true, false, false, false]
        [some 1, some 2, some 3, some 4, some 5, some 6]))).map PyNum.rat) := rfl
    rw [h]
    simp [applyMask, validOf, List.filterMap, maxQ]
    norm_num [max_def]

/-- Witness for C2's hypothesis-bearing components at concrete inputs: the
sample-variance formula at [1, 2] (divisor n − 1 = 1), applied through the
claim theorem. -/
theorem cohortCompare_stats_spec_witness :
    2 ≤ ([1, 2] : List ℚ).length ∧
    varQ [1, 2] = some ((([1, 2] : List ℚ).map
      (fun x => (x - ([1, 2] : List ℚ).sum / (([1, 2] : List ℚ).length : ℚ)) ^ 2)).sum /
        ((([1, 2] : List ℚ).length : ℚ) - 1)) :=
  ⟨by norm_num, cohortCompare_stats_spec.2.2.2.2.1 [1, 2] (by norm_num)⟩

